import Mathlib

set_option maxRecDepth 8000

/-!
Verification of the Music-Visualizer terrain engine.

The development shallowly embeds the two source files of the repository:

* `test.py` — the audio-reactive visualizer (`Terrain` class: lattice built
  with `np.arange(-20, 20 + 1.3, 1.3)`, the `mesh` method with its
  amplitude-buffer pipeline, topology/color loops, and the `update` tick that
  reads the audio stream), and
* `perline_noise.py` — the plain "fly-over" terrain (`Terrain` class: integer
  lattice `range(-20, 22, 1)`, the `update` tick advancing the rotation
  angles and the noise offset, `rotation_matrix_3d` and `rotate_vertices`).

Machine floats of the source are embedded as exact rationals (for heights,
amplitudes, colors and lattice coordinates) or reals (for the trigonometric
rotation part and the angle deltas built from pi).  The noise primitive
`OpenSimplex.noise2` is an external black box and is embedded as an arbitrary
function parameter.  NumPy fixed-width integer casts are embedded with
explicit wrap-around arithmetic (`% 256`, `% 65536`) where the source incurs
them, and fallible operations (`struct.unpack`, `ndarray.reshape`) return
`Except`.
-/

/-! ## Definitions -/

/-! ### Topology Builder

`test.py` lines 79–88 (and identically `perline_noise.py` lines 139–148):
a double loop over `m, n in range(self.nfaces - 1)` appending per quad the
two faces `[n + yoff, yoff + n + nfaces, yoff + n + nfaces + 1]` and
`[n + yoff, yoff + n + 1, yoff + n + nfaces + 1]` with `yoff = m * nfaces`,
and the two colors `[n/nfaces, 1 - n/nfaces, m/nfaces, 0.7]` and
`[n/nfaces, 1 - n/nfaces, m/nfaces, 0.8]`.  The loop body appending two
elements is embedded as a two-element list, the loops as `flatMap` over
`List.range`. -/

/-- The two triangles appended for quad `(n, m)` in the faces loop. -/
def quadFaces (nfaces m n : ℕ) : List (ℕ × ℕ × ℕ) :=
  [(n + m * nfaces, m * nfaces + n + nfaces, m * nfaces + n + nfaces + 1),
   (n + m * nfaces, m * nfaces + n + 1, m * nfaces + n + nfaces + 1)]

/-- One iteration of the outer faces loop (fixed `m`, inner loop over `n`). -/
def faceRow (nfaces m : ℕ) : List (ℕ × ℕ × ℕ) :=
  (List.range (nfaces - 1)).flatMap (quadFaces nfaces m)

/-- The complete face list built by the topology loops. -/
def buildFaces (nfaces : ℕ) : List (ℕ × ℕ × ℕ) :=
  (List.range (nfaces - 1)).flatMap (faceRow nfaces)

/-- The two RGBA colors appended for quad `(n, m)` in the colors loop. -/
def quadColors (nfaces m n : ℕ) : List (ℚ × ℚ × ℚ × ℚ) :=
  [((n : ℚ) / nfaces, 1 - (n : ℚ) / nfaces, (m : ℚ) / nfaces, 0.7),
   ((n : ℚ) / nfaces, 1 - (n : ℚ) / nfaces, (m : ℚ) / nfaces, 0.8)]

/-- One iteration of the outer colors loop (fixed `m`, inner loop over `n`). -/
def colorRow (nfaces m : ℕ) : List (ℚ × ℚ × ℚ × ℚ) :=
  (List.range (nfaces - 1)).flatMap (quadColors nfaces m)

/-- The complete color list built by the topology loops. -/
def buildColors (nfaces : ℕ) : List (ℚ × ℚ × ℚ × ℚ) :=
  (List.range (nfaces - 1)).flatMap (colorRow nfaces)

/-- The two RGBA colors appended for quad `(n, m)` in the plain-mode
`__init__` colors loop (`perline_noise.py` lines 69–70): both `[0, 0, 0, 0]`. -/
def initQuadColors (_m _n : ℕ) : List (ℚ × ℚ × ℚ × ℚ) :=
  [(0, 0, 0, 0), (0, 0, 0, 0)]

/-- One iteration of the outer `__init__` colors loop (fixed `m`, inner loop
over `n`). -/
def initColorRow (nfaces m : ℕ) : List (ℚ × ℚ × ℚ × ℚ) :=
  (List.range (nfaces - 1)).flatMap (initQuadColors m)

/-- The frame-0 color list published by the plain-mode `__init__`
(`perline_noise.py` lines 62–73): every triangle gets `[0, 0, 0, 0]`. -/
def buildInitColors (nfaces : ℕ) : List (ℚ × ℚ × ℚ × ℚ) :=
  (List.range (nfaces - 1)).flatMap (initColorRow nfaces)

/-! ### Amplitude-buffer pipeline (`test.py` `Terrain.mesh`, lines 61–66)

`wf_data = struct.unpack(str(2 * CHUNK) + B, wf_data)` — fails unless the
byte string has exactly `2 * CHUNK` bytes; `np.array(wf_data, dtype=b)`
reinterprets each unsigned byte as a signed 8-bit value; `[::2] + 128` takes
every other sample and adds 128 (NumPy promotes to a width that holds the
result; we record the 16-bit bound explicitly); `np.array(..., dtype=int32)
- 128` subtracts the bias back; `* 0.04` scales; `.reshape((len(xpoints),
len(ypoints)))` reinterprets the flat buffer as a row-major grid. -/

/-- NumPy `dtype=b` conversion: reinterpret an unsigned byte as signed
8-bit (wrap-around into `[-128, 127]`). -/
def toInt8 (b : ℕ) : ℤ := ((b : ℤ) + 128) % 256 - 128

/-- Wrap-around of a 16-bit signed integer, the narrowest fixed width NumPy
can pick for the `int8 + 128` sum. -/
def int16wrap (x : ℤ) : ℤ := (x + 32768) % 65536 - 32768

/-- Python slice `[::2]`: every other element, starting at index 0. -/
def everyOther {α : Type} : List α → List α
  | [] => []
  | [a] => [a]
  | a :: _ :: rest => a :: everyOther rest

/-- The amplitude pipeline of the source: alternate bytes, signed 8-bit
reinterpretation, `+ 128`, `- 128`, `* 0.04`. -/
def ampPipeline (raw : List ℕ) : List ℚ :=
  (everyOther raw).map fun b => ((int16wrap (toInt8 b + 128) - 128 : ℤ) : ℚ) * 0.04

/-- The simplified pipeline that omits the `+128` / `-128` pair: signed
8-bit reinterpretation of the alternating byte, times `0.04`. -/
def ampPipelineSimple (raw : List ℕ) : List ℚ :=
  (everyOther raw).map fun b => ((toInt8 b : ℤ) : ℚ) * 0.04

/-- Failure modes of `Terrain.mesh`: `struct.error` from `struct.unpack` and
`ValueError` from `ndarray.reshape`. -/
inductive MeshError : Type
  | structError : MeshError
  | reshapeError : MeshError
deriving DecidableEq

/-- Equality of `Except` results is decidable when both components are. -/
instance {ε α : Type} [DecidableEq ε] [DecidableEq α] : DecidableEq (Except ε α)
  | Except.ok a, Except.ok b =>
    if h : a = b then isTrue (by rw [h]) else isFalse fun hh => h (Except.ok.inj hh)
  | Except.ok _, Except.error _ => isFalse fun hh => Except.noConfusion hh
  | Except.error _, Except.ok _ => isFalse fun hh => Except.noConfusion hh
  | Except.error d, Except.error e =>
    if h : d = e then isTrue (by rw [h]) else isFalse fun hh => h (Except.error.inj hh)

/-- Decidable equality of vertex lists. -/
instance decEqVertList : DecidableEq (List (ℚ × ℚ × ℚ)) := inferInstance

/-- Decidable equality of face lists. -/
instance decEqFaceList : DecidableEq (List (ℕ × ℕ × ℕ)) := inferInstance

/-- Decidable equality of color lists. -/
instance decEqColorList : DecidableEq (List (ℚ × ℚ × ℚ × ℚ)) := inferInstance

/-- Decidable equality of complete mesh-data triples. -/
instance decEqMeshData :
    DecidableEq (List (ℚ × ℚ × ℚ) × List (ℕ × ℕ × ℕ) × List (ℚ × ℚ × ℚ × ℚ)) :=
  inferInstance

/-- `struct.unpack(count-B, data)`: succeeds with the byte values exactly
when `data` has exactly `count` bytes. -/
def structUnpackB (count : ℕ) (data : List ℕ) : Except MeshError (List ℕ) :=
  if data.length = count then Except.ok data else Except.error MeshError.structError

/-- `ndarray.reshape((nx, ny))` of a flat buffer: succeeds exactly when the
element count matches, yielding row-major access `grid[n][m] = flat[n*ny+m]`. -/
def reshape (l : List ℚ) (nx ny : ℕ) : Except MeshError (ℕ → ℕ → ℚ) :=
  if l.length = nx * ny then Except.ok (fun n m => (l[n * ny + m]?).getD 0)
  else Except.error MeshError.reshapeError

/-- `self.CHUNK = len(self.xpoints) * len(self.ypoints)` (`test.py` line 31). -/
def CHUNK (nx ny : ℕ) : ℕ := nx * ny

/-! ### Lattice -/

/-- Number of points of `np.arange(start, stop, step)` for positive `step`:
`⌈(stop − start) / step⌉`, embedded over exact rationals. -/
def arangeLen (start stop step : ℚ) : ℕ := (⌈(stop - start) / step⌉).toNat

/-- `self.xpoints = np.arange(-20, 20 + 1.3, 1.3)` (`test.py` line 26):
the `n`-th world x-coordinate. -/
def xpt (n : ℕ) : ℚ := -20 + 1.3 * n

/-- `self.ypoints = np.arange(-20, 20 + 1.3, 1.3)` (`test.py` line 25):
the `m`-th world y-coordinate. -/
def ypt (m : ℕ) : ℚ := -20 + 1.3 * m

/-- `self.xpoints = range(-20, 22, 1)` (`perline_noise.py` lines 37–38):
the `n`-th world coordinate of the plain-mode lattice (42 points). -/
def plainXs (n : ℕ) : ℚ := -20 + n

/-! ### HeightSampler / vertex arrays -/

/-- One row (`n` fixed, `m` ranging) of the audio-mode vertex comprehension
(`test.py` lines 73–77): `[x, y, wf_data[n][m] * noise2(n/5.5 + offset,
m/5.2 + offset)]`. -/
def vertRow (ny : ℕ) (noise : ℚ → ℚ → ℚ) (offset : ℚ) (wf : ℕ → ℕ → ℚ) (n : ℕ) :
    List (ℚ × ℚ × ℚ) :=
  (List.range ny).map fun m =>
    (xpt n, ypt m, wf n m * noise ((n : ℚ) / 5.5 + offset) ((m : ℚ) / 5.2 + offset))

/-- The audio-mode vertex array, row-major over the `nx × ny` lattice. -/
def meshVerts (nx ny : ℕ) (noise : ℚ → ℚ → ℚ) (offset : ℚ) (wf : ℕ → ℕ → ℚ) :
    List (ℚ × ℚ × ℚ) :=
  (List.range nx).flatMap (vertRow ny noise offset wf)

/-- `Terrain.mesh` of `test.py` (lines 60–91): amplitude-buffer processing
(or the hardcoded `np.array([1] * 1024)` default), then vertex, face and
color arrays.  The noise primitive is a parameter. -/
def meshA (nx ny : ℕ) (noise : ℚ → ℚ → ℚ) (offset : ℚ) (wf_data : Option (List ℕ)) :
    Except MeshError (List (ℚ × ℚ × ℚ) × List (ℕ × ℕ × ℕ) × List (ℚ × ℚ × ℚ × ℚ)) :=
  let gridE : Except MeshError (ℕ → ℕ → ℚ) :=
    match wf_data with
    | some raw =>
      match structUnpackB (2 * CHUNK nx ny) raw with
      | Except.error e => Except.error e
      | Except.ok unpacked => reshape (ampPipeline unpacked) nx ny
    | none => reshape (List.replicate 1024 (1 : ℚ)) nx ny
  match gridE with
  | Except.error e => Except.error e
  | Except.ok wf => Except.ok (meshVerts nx ny noise offset wf, buildFaces ny, buildColors ny)

/-- The vertex list of a `Terrain.mesh` result (empty on failure). -/
def exceptVerts
    (e : Except MeshError (List (ℚ × ℚ × ℚ) × List (ℕ × ℕ × ℕ) × List (ℚ × ℚ × ℚ × ℚ))) :
    List (ℚ × ℚ × ℚ) :=
  match e with
  | Except.ok r => r.1
  | Except.error _ => []

/-! ### AnimationDriver state -/

/-- Audio-mode `Terrain` mutable state: `self.offset` and the currently
published mesh data (`self.mesh1`). -/
structure AudioState : Type where
  offset : ℚ
  meshData : List (ℚ × ℚ × ℚ) × List (ℕ × ℕ × ℕ) × List (ℚ × ℚ × ℚ × ℚ)
deriving DecidableEq

/-- `Terrain.update` of `test.py` (lines 93–103): when the stream is active,
read a fresh amplitude buffer and republish the mesh; an `OSError` from the
read is caught and printed (the reported error codes are returned as a log
list), while a `struct.error` from `mesh` would propagate (modeled as
`Except.error`).  The stream read outcome is passed in as a parameter. -/
def audioUpdate (nx ny : ℕ) (noise : ℚ → ℚ → ℚ) (s : AudioState) (streamActive : Bool)
    (readResult : Except ℕ (List ℕ)) : Except MeshError (AudioState × List ℕ) :=
  if streamActive then
    match readResult with
    | Except.error e => Except.ok (s, [e])
    | Except.ok raw =>
      match meshA nx ny noise s.offset (some raw) with
      | Except.error e2 => Except.error e2
      | Except.ok md => Except.ok ({ s with meshData := md }, [])
  else Except.ok (s, [])

/-- Plain-mode `Terrain` animation state (`perline_noise.py`): the three
rotation angles and the noise offset. -/
structure PlainState : Type where
  theta_x : ℝ
  theta_y : ℝ
  theta_z : ℝ
  offset : ℝ

/-- The state mutations of plain-mode `Terrain.update` (`perline_noise.py`
lines 121–156), in source order: `theta_x -= pi/60`, `theta_y += pi/40`,
`theta_z -= pi/30`, and at the end `offset -= 0.18`. -/
noncomputable def plainUpdate (s : PlainState) : PlainState :=
  let s1 : PlainState := { s with theta_x := s.theta_x - Real.pi / 60 }
  let s2 : PlainState := { s1 with theta_y := s1.theta_y + Real.pi / 40 }
  let s3 : PlainState := { s2 with theta_z := s2.theta_z - Real.pi / 30 }
  { s3 with offset := s3.offset - 0.18 }

/-- One row (`n` fixed, `m` ranging) of the plain-mode vertex comprehension
of `Terrain.update` (`perline_noise.py` lines 129–133):
`[x, y, 2.5 * noise2(n/5 + offset, m/5 + offset)]`. -/
def plainVertRow (noise : ℚ → ℚ → ℚ) (offset : ℚ) (n : ℕ) : List (ℚ × ℚ × ℚ) :=
  (List.range 42).map fun m =>
    (plainXs n, plainXs m, 2.5 * noise ((n : ℚ) / 5 + offset) ((m : ℚ) / 5 + offset))

/-- The plain-mode vertex array rebuilt by `Terrain.update`, row-major over
the 42 × 42 lattice. -/
def plainUpdateVerts (noise : ℚ → ℚ → ℚ) (offset : ℚ) : List (ℚ × ℚ × ℚ) :=
  (List.range 42).flatMap (plainVertRow noise offset)

/-! ### RotationTransform (`perline_noise.py` lines 86–119) -/

/-- Rotation matrix around the X-axis, exactly as written in
`rotation_matrix_3d`. -/
noncomputable def R_x (t : ℝ) : Matrix (Fin 3) (Fin 3) ℝ :=
  !![1, 0, 0;
     0, Real.cos t, -Real.sin t;
     0, Real.sin t, Real.cos t]

/-- Rotation matrix around the Y-axis, exactly as written in
`rotation_matrix_3d`. -/
noncomputable def R_y (t : ℝ) : Matrix (Fin 3) (Fin 3) ℝ :=
  !![Real.cos t, 0, Real.sin t;
     0, 1, 0;
     -Real.sin t, 0, Real.cos t]

/-- Rotation matrix around the Z-axis, exactly as written in
`rotation_matrix_3d`. -/
noncomputable def R_z (t : ℝ) : Matrix (Fin 3) (Fin 3) ℝ :=
  !![Real.cos t, -Real.sin t, 0;
     Real.sin t, Real.cos t, 0;
     0, 0, 1]

/-- `R_total = np.dot(np.dot(R_z, R_y), R_x)`. -/
noncomputable def rotation_matrix_3d (tx ty tz : ℝ) : Matrix (Fin 3) (Fin 3) ℝ :=
  R_z tz * R_y ty * R_x tx

/-- `rotate_vertices`: `np.dot(vertices, rotation_matrix.T)` applied to a
`k × 3` vertex array. -/
noncomputable def rotate_vertices {k : ℕ} (vertices : Matrix (Fin k) (Fin 3) ℝ)
    (tx ty tz : ℝ) : Matrix (Fin k) (Fin 3) ℝ :=
  vertices * (rotation_matrix_3d tx ty tz).transpose

/-! ### Spec-side definition -/

/-- The plain-mode height formula of spec §4.3, in the lattice-index form the
source implements: `heightScale * noise(n/kx + timeOffset, m/ky + timeOffset)`
for sampled node `(n, m)`. -/
def specPlainZ (noise : ℚ → ℚ → ℚ) (hS kx ky t : ℚ) (n m : ℕ) : ℚ :=
  hS * noise ((n : ℚ) / kx + t) ((m : ℚ) / ky + t)

/-! ## Theorems -/

/-! ### Generic indexing lemmas for doubly nested list comprehensions -/

/-- Length of a row-uniform `flatMap` over `List.range`. -/
lemma length_range_flatMap {α : Type} (f : ℕ → List α) (L : ℕ)
    (hL : ∀ i, (f i).length = L) : ∀ a : ℕ, ((List.range a).flatMap f).length = a * L := by
  intro a
  induction a with
  | zero => simp
  | succ a ih =>
    rw [List.range_succ, List.flatMap_append]
    simp [ih, hL, Nat.succ_mul]

/-- Row-major indexing into a row-uniform `flatMap` over `List.range`. -/
lemma getElem?_range_flatMap {α : Type} (f : ℕ → List α) (L : ℕ)
    (hL : ∀ i, (f i).length = L) :
    ∀ (a i j : ℕ), i < a → j < L → ((List.range a).flatMap f)[i * L + j]? = (f i)[j]? := by
  intro a
  induction a with
  | zero => intro i j hi _; exact absurd hi (Nat.not_lt_zero i)
  | succ a ih =>
    intro i j hi hj
    rw [List.range_succ, List.flatMap_append]
    have hlen : ((List.range a).flatMap f).length = a * L := length_range_flatMap f L hL a
    rcases Nat.lt_or_ge i a with h | h
    · rw [List.getElem?_append, if_pos (by
        rw [hlen]
        calc i * L + j < i * L + L := by omega
          _ = (i + 1) * L := by ring
          _ ≤ a * L := Nat.mul_le_mul_right L h)]
      exact ih i j h hj
    · have hia : i = a := by omega
      subst hia
      rw [List.getElem?_append_right (by rw [hlen]; omega)]
      rw [hlen]
      have h3 : i * L + j - i * L = j := by omega
      rw [h3]
      simp

lemma faceRow_length (nfaces m : ℕ) : (faceRow nfaces m).length = (nfaces - 1) * 2 :=
  length_range_flatMap (quadFaces nfaces m) 2 (fun _ => rfl) (nfaces - 1)

lemma colorRow_length (nfaces m : ℕ) : (colorRow nfaces m).length = (nfaces - 1) * 2 :=
  length_range_flatMap (quadColors nfaces m) 2 (fun _ => rfl) (nfaces - 1)

lemma initColorRow_length (nfaces m : ℕ) :
    (initColorRow nfaces m).length = (nfaces - 1) * 2 :=
  length_range_flatMap (initQuadColors m) 2 (fun _ => rfl) (nfaces - 1)

/-- Both triangles of every quad of the plain-mode frame-0 color array carry
`(0, 0, 0, 0)`. -/
lemma buildInitColors_getElem? (N n m : ℕ) (hn : n < N - 1) (hm : m < N - 1) :
    (buildInitColors N)[2 * (m * (N - 1) + n)]? = some ((0 : ℚ), 0, 0, 0) ∧
    (buildInitColors N)[2 * (m * (N - 1) + n) + 1]? = some ((0 : ℚ), 0, 0, 0) := by
  constructor
  · have e : 2 * (m * (N - 1) + n) = m * ((N - 1) * 2) + (n * 2 + 0) := by ring
    rw [buildInitColors, e,
      getElem?_range_flatMap (initColorRow N) ((N - 1) * 2) (initColorRow_length N) (N - 1) m
        (n * 2 + 0) hm (by omega),
      initColorRow,
      getElem?_range_flatMap (initQuadColors m) 2 (fun _ => rfl) (N - 1) n 0 hn (by omega)]
    rfl
  · have e : 2 * (m * (N - 1) + n) + 1 = m * ((N - 1) * 2) + (n * 2 + 1) := by ring
    rw [buildInitColors, e,
      getElem?_range_flatMap (initColorRow N) ((N - 1) * 2) (initColorRow_length N) (N - 1) m
        (n * 2 + 1) hm (by omega),
      initColorRow,
      getElem?_range_flatMap (initQuadColors m) 2 (fun _ => rfl) (N - 1) n 1 hn (by omega)]
    rfl

/-- Claim C1: for every square lattice with `N = M ≥ 2` points per axis, the
topology builder emits exactly `2·(N−1)·(M−1)` faces, and every vertex index
appearing in any face is strictly less than the vertex count `N·M`. -/
theorem C1_topology_faces : ∀ N : ℕ, 2 ≤ N →
    (buildFaces N).length = 2 * (N - 1) * (N - 1) ∧
    ∀ f ∈ buildFaces N, f.1 < N * N ∧ f.2.1 < N * N ∧ f.2.2 < N * N := by
  intro N hN
  constructor
  · have h := length_range_flatMap (faceRow N) ((N - 1) * 2) (faceRow_length N) (N - 1)
    rw [buildFaces, h]
    ring
  · intro f hf
    obtain ⟨P, rfl⟩ : ∃ P, N = P + 1 := ⟨N - 1, by omega⟩
    rw [buildFaces, List.mem_flatMap] at hf
    obtain ⟨m, hm, hf⟩ := hf
    rw [faceRow, List.mem_flatMap] at hf
    obtain ⟨n, hn, hf⟩ := hf
    rw [List.mem_range] at hm hn
    have hm2 : m < P := by omega
    have hn2 : n < P := by omega
    have key : (m + 1) * (P + 1) ≤ P * (P + 1) := Nat.mul_le_mul_right (P + 1) hm2
    rw [quadFaces] at hf
    rcases List.mem_pair.mp hf with rfl | rfl
    · refine ⟨?_, ?_, ?_⟩ <;> nlinarith [key, hn2]
    · refine ⟨?_, ?_, ?_⟩ <;> nlinarith [key, hn2]

/-- Witness for C1 at the concrete lattice size `N = M = 2`. -/
theorem C1_topology_faces_witness : 2 ≤ 2 ∧
    ((buildFaces 2).length = 2 * (2 - 1) * (2 - 1) ∧
      ∀ f ∈ buildFaces 2, f.1 < 2 * 2 ∧ f.2.1 < 2 * 2 ∧ f.2.2 < 2 * 2) :=
  ⟨by decide, C1_topology_faces 2 (by decide)⟩

/-- Claim C7 as stated is false: it demands the gradient colors
`(n/N, 1 − n/N, m/N)` with alpha `0.7` / `0.8` for every quad of *every*
frame's published color array, but the frame-0 color array published by the
plain-mode `__init__` (`perline_noise.py` lines 69–70, `nfaces = 42`) assigns
`[0, 0, 0, 0]` to every triangle: at quad `(0, 0)` the first triangle's color
is not `(0/42, 1 − 0/42, 0/42, 0.7)`, whose green channel is 1, not 0. -/
theorem C7_quad_colors_counterexample :
    ¬ ((buildInitColors 42)[2 * (0 * (42 - 1) + 0)]? =
        some ((0 : ℚ) / 42, 1 - (0 : ℚ) / 42, (0 : ℚ) / 42, (0.7 : ℚ))) := by
  intro h
  rw [(buildInitColors_getElem? 42 0 0 (by norm_num) (by norm_num)).1] at h
  simp only [Option.some.injEq, Prod.mk.injEq] at h
  norm_num at h

/-- Claim C7, amended: for every quad `(n, m)` of every color array published
by `Terrain.update` (the audio-mode `mesh` loop and the plain-mode update
loop), the two triangles of the quad are assigned colors with RGB channels
`(n/N, 1 − n/N, m/N)`, with alpha `0.7` for the first triangle and `0.8` for
the second; the plain-mode frame-0 array published by `__init__` instead
assigns `(0, 0, 0, 0)` to both triangles of every quad. -/
theorem C7_quad_colors_amended : ∀ N n m : ℕ, n < N - 1 → m < N - 1 →
    ((buildColors N)[2 * (m * (N - 1) + n)]? =
        some ((n : ℚ) / N, 1 - (n : ℚ) / N, (m : ℚ) / N, 0.7) ∧
      (buildColors N)[2 * (m * (N - 1) + n) + 1]? =
        some ((n : ℚ) / N, 1 - (n : ℚ) / N, (m : ℚ) / N, 0.8)) ∧
    ((buildInitColors N)[2 * (m * (N - 1) + n)]? = some ((0 : ℚ), 0, 0, 0) ∧
      (buildInitColors N)[2 * (m * (N - 1) + n) + 1]? = some ((0 : ℚ), 0, 0, 0)) := by
  intro N n m hn hm
  refine ⟨?_, buildInitColors_getElem? N n m hn hm⟩
  constructor
  · have e : 2 * (m * (N - 1) + n) = m * ((N - 1) * 2) + (n * 2 + 0) := by ring
    rw [buildColors, e,
      getElem?_range_flatMap (colorRow N) ((N - 1) * 2) (colorRow_length N) (N - 1) m
        (n * 2 + 0) hm (by omega),
      colorRow,
      getElem?_range_flatMap (quadColors N m) 2 (fun _ => rfl) (N - 1) n 0 hn (by omega)]
    rfl
  · have e : 2 * (m * (N - 1) + n) + 1 = m * ((N - 1) * 2) + (n * 2 + 1) := by ring
    rw [buildColors, e,
      getElem?_range_flatMap (colorRow N) ((N - 1) * 2) (colorRow_length N) (N - 1) m
        (n * 2 + 1) hm (by omega),
      colorRow,
      getElem?_range_flatMap (quadColors N m) 2 (fun _ => rfl) (N - 1) n 1 hn (by omega)]
    rfl

/-- Witness for the amended C7 at the concrete quad `(0, 0)` of a `2 × 2`
lattice: the update-frame color is the gradient, the frame-0 color is zero. -/
theorem C7_quad_colors_witness :
    (buildColors 2)[0]? = some ((0 : ℚ), (1 : ℚ), (0 : ℚ), (0.7 : ℚ)) ∧
    (buildInitColors 2)[0]? = some ((0 : ℚ), (0 : ℚ), (0 : ℚ), (0 : ℚ)) := by
  have h := C7_quad_colors_amended 2 0 0 (by decide) (by decide)
  constructor
  · simpa using h.1.1
  · simpa using h.2.1

/-! ### Amplitude pipeline -/

/-- Indexing `[::2]`: element `i` of `everyOther l` is element `2·i` of `l`. -/
lemma everyOther_getElem? {α : Type} : ∀ (l : List α) (i : ℕ),
    (everyOther l)[i]? = l[2 * i]? := by
  intro l
  induction l using everyOther.induct with
  | case1 => simp [everyOther]
  | case2 a =>
    intro i
    match i with
    | 0 => simp [everyOther]
    | i + 1 =>
      have h2 : 2 * (i + 1) = 2 * i + 1 + 1 := by omega
      simp [everyOther, h2]
  | case3 a b rest ih =>
    intro i
    match i with
    | 0 => simp [everyOther]
    | i + 1 =>
      have h2 : 2 * (i + 1) = 2 * i + 1 + 1 := by omega
      simp only [everyOther, h2, List.getElem?_cons_succ]
      exact ih i

/-- The `+128` then `−128` around the 16-bit sum is the identity on signed
8-bit values. -/
lemma recenter_noop (b : ℕ) : int16wrap (toInt8 b + 128) - 128 = toInt8 b := by
  unfold int16wrap toInt8
  omega

/-- Claim C8: the amplitude pipeline of the source (unpack as unsigned
bytes, take every other byte, reinterpret as signed 8-bit, add 128, subtract
128, multiply by 0.04, reshape row-major) is extensionally equal to the
simplified pipeline that omits the add-128/subtract-128 pair: each amplitude
is the signed 8-bit interpretation of the corresponding alternating byte
times 0.04. -/
theorem C8_recentering_noop : ∀ raw : List ℕ,
    ampPipeline raw = ampPipelineSimple raw ∧
    ∀ i : ℕ, (everyOther raw)[i]? = raw[2 * i]? := by
  intro raw
  constructor
  · simp only [ampPipeline, ampPipelineSimple, recenter_noop]
  · exact everyOther_getElem? raw

/-! ### Buffer-length contract -/

/-- Claim C5: for every supplied amplitude buffer whose byte length differs
from `2·N·M`, the height sampler signals an error (`struct.error`); it never
silently truncates, pads, or reshapes a wrong-length buffer. -/
theorem C5_buffer_length_error : ∀ (nx ny : ℕ) (noise : ℚ → ℚ → ℚ) (t : ℚ)
    (raw : List ℕ), raw.length ≠ 2 * CHUNK nx ny →
    meshA nx ny noise t (some raw) = Except.error MeshError.structError := by
  intro nx ny noise t raw h
  have hu : structUnpackB (2 * CHUNK nx ny) raw = Except.error MeshError.structError := by
    unfold structUnpackB
    rw [if_neg h]
  simp only [meshA, hu]

/-- Witness for C5: the empty buffer fails against a 1 × 1 lattice. -/
theorem C5_buffer_length_error_witness :
    ([] : List ℕ).length ≠ 2 * CHUNK 1 1 ∧
    meshA 1 1 (fun _ _ => 0) 0 (some []) = Except.error MeshError.structError :=
  ⟨by decide, C5_buffer_length_error 1 1 (fun _ _ => 0) 0 [] (by decide)⟩

/-! ### Default amplitude buffer -/

/-- With no amplitude buffer, `Terrain.mesh` substitutes the hardcoded
1024-element buffer of ones, which reshapes successfully for the 32 × 32
lattice. -/
lemma meshA_default : ∀ (noise : ℚ → ℚ → ℚ) (t : ℚ),
    meshA 32 32 noise t none =
      Except.ok (meshVerts 32 32 noise t
          (fun n m => ((List.replicate 1024 (1 : ℚ))[n * 32 + m]?).getD 0),
        buildFaces 32, buildColors 32) := by
  intro noise t
  have hr : reshape (List.replicate 1024 (1 : ℚ)) 32 32 =
      Except.ok (fun n m => ((List.replicate 1024 (1 : ℚ))[n * 32 + m]?).getD 0) := by
    unfold reshape
    rw [List.length_replicate, if_pos (by decide)]
  simp only [meshA, hr]

/-- Claim C10: the configured lattice `np.arange(-20, 20 + 1.3, 1.3)` has
exactly 32 points per axis (1024 nodes); with no amplitude buffer the
hardcoded 1024-element buffer of ones reshapes successfully for that lattice,
and for any lattice whose node count differs from 1024 the no-buffer call
fails instead of producing a default surface. -/
theorem C10_default_buffer :
    arangeLen (-20) (20 + 1.3) 1.3 = 32 ∧
    (∀ (noise : ℚ → ℚ → ℚ) (t : ℚ), ∃ md, meshA 32 32 noise t none = Except.ok md) ∧
    (∀ (nx ny : ℕ) (noise : ℚ → ℚ → ℚ) (t : ℚ), nx * ny ≠ 1024 →
      meshA nx ny noise t none = Except.error MeshError.reshapeError) := by
  refine ⟨?_, ?_, ?_⟩
  · unfold arangeLen
    have h : ⌈((20 + 1.3 : ℚ) - (-20)) / 1.3⌉ = 32 := by
      rw [Int.ceil_eq_iff]
      constructor <;> norm_num
    rw [h]
    rfl
  · intro noise t
    exact ⟨_, meshA_default noise t⟩
  · intro nx ny noise t h
    have hr : reshape (List.replicate 1024 (1 : ℚ)) nx ny =
        Except.error MeshError.reshapeError := by
      unfold reshape
      rw [List.length_replicate, if_neg (Ne.symm h)]
    simp only [meshA, hr]

/-- Witness for C10: a 2 × 2 lattice (4 ≠ 1024 nodes) makes the no-buffer
call fail. -/
theorem C10_default_buffer_witness :
    2 * 2 ≠ 1024 ∧
    meshA 2 2 (fun _ _ => 0) 0 none = Except.error MeshError.reshapeError :=
  ⟨by decide, C10_default_buffer.2.2 2 2 (fun _ _ => 0) 0 (by decide)⟩

/-! ### Vertex-array indexing -/

/-- Row-major indexing into the audio-mode vertex array: the vertex of
lattice node `(n, m)` sits at flat index `n·ny + m` and carries the height
`wf_data[n][m] * noise2(n/5.5 + offset, m/5.2 + offset)`. -/
lemma meshVerts_getElem? (nx ny : ℕ) (noise : ℚ → ℚ → ℚ) (t : ℚ) (wf : ℕ → ℕ → ℚ)
    (n m : ℕ) (hn : n < nx) (hm : m < ny) :
    (meshVerts nx ny noise t wf)[n * ny + m]? =
      some (xpt n, ypt m, wf n m * noise ((n : ℚ) / 5.5 + t) ((m : ℚ) / 5.2 + t)) := by
  rw [meshVerts,
    getElem?_range_flatMap (vertRow ny noise t wf) ny (fun i => by simp [vertRow]) nx n m hn hm]
  simp [vertRow, hm]

/-- Row-major indexing into the plain-mode vertex array: the vertex of
lattice node `(n, m)` sits at flat index `n·42 + m` and carries the height
`2.5 * noise2(n/5 + offset, m/5 + offset)`. -/
lemma plainVerts_getElem? (noise : ℚ → ℚ → ℚ) (t : ℚ) (n m : ℕ)
    (hn : n < 42) (hm : m < 42) :
    (plainUpdateVerts noise t)[n * 42 + m]? =
      some (plainXs n, plainXs m, 2.5 * noise ((n : ℚ) / 5 + t) ((m : ℚ) / 5 + t)) := by
  rw [plainUpdateVerts,
    getElem?_range_flatMap (plainVertRow noise t) 42 (fun i => by simp [plainVertRow]) 42 n m hn hm]
  simp [plainVertRow, hm]

/-! ### Unit amplitude reduces to the plain formula -/

/-- Claim C9: for every time offset, sampling heights with the constant
amplitude buffer of ones (the default grid) produces a vertex array whose z
values are exactly those of the plain-mode height formula with height scale 1
and the audio-mode divisors — the amplitude factor drops out. -/
theorem C9_unit_amplitude : ∀ (noise : ℚ → ℚ → ℚ) (t : ℚ) (n m : ℕ),
    n < 32 → m < 32 →
    (exceptVerts (meshA 32 32 noise t none))[n * 32 + m]? =
      some (xpt n, ypt m, specPlainZ noise 1 5.5 5.2 t n m) := by
  intro noise t n m hn hm
  rw [meshA_default noise t]
  unfold exceptVerts
  rw [meshVerts_getElem? 32 32 noise t _ n m hn hm]
  have hrep : ((List.replicate 1024 (1 : ℚ))[n * 32 + m]?).getD 0 = 1 := by
    rw [List.getElem?_replicate, if_pos (by omega)]
    rfl
  rw [hrep, specPlainZ, one_mul]

/-- Witness for C9 at node `(0, 0)` with a constant noise function. -/
theorem C9_unit_amplitude_witness : (0 : ℕ) < 32 ∧
    (exceptVerts (meshA 32 32 (fun _ _ => 1) 0 none))[0 * 32 + 0]? =
      some (xpt 0, ypt 0, specPlainZ (fun _ _ => 1) 1 5.5 5.2 0 0 0) :=
  ⟨by decide, C9_unit_amplitude (fun _ _ => 1) 0 0 0 (by decide) (by decide)⟩

/-! ### The height-formula arguments are lattice indices, not world
coordinates -/

/-- Claim C2 as stated is false: the plain-mode height is not
`heightScale * noise(xs[n]/5 + offset, ys[m]/5 + offset)` with `xs[n], ys[m]`
the world coordinates.  Refuted with the noise function `fun x _ => x` at
node `(0, 0)` and offset `0`: the code samples `noise(0/5 + 0) = 0`, while
the world-coordinate formula demands `noise(-20/5 + 0) = -4`, so the heights
`0` and `-10` differ. -/
theorem C2_height_formula_counterexample :
    ¬ (∀ (noise : ℚ → ℚ → ℚ) (t : ℚ) (n m : ℕ), n < 42 → m < 42 →
        (plainUpdateVerts noise t)[n * 42 + m]? =
          some (plainXs n, plainXs m,
            2.5 * noise (plainXs n / 5 + t) (plainXs m / 5 + t))) := by
  intro h
  have h1 := h (fun x _ => x) 0 0 0 (by norm_num) (by norm_num)
  rw [plainVerts_getElem? (fun x _ => x) 0 0 0 (by norm_num) (by norm_num)] at h1
  simp only [Option.some.injEq, Prod.mk.injEq, plainXs] at h1
  norm_num at h1

/-- Claim C2, amended: the sampled height at lattice node `(n, m)` is
`heightScale * noise(n/kx + timeOffset, m/ky + timeOffset)` where the noise
arguments are the lattice *indices* `n, m` (not the world coordinates), with
`kx = ky = 5` and height scale `2.5` in plain mode, and divisors `5.5 / 5.2`
with the per-node amplitude as scale in audio mode. -/
theorem C2_height_formula_amended : ∀ (noise : ℚ → ℚ → ℚ) (t : ℚ) (n m : ℕ)
    (nx ny : ℕ) (wf : ℕ → ℕ → ℚ),
    (n < 42 → m < 42 →
      (plainUpdateVerts noise t)[n * 42 + m]? =
        some (plainXs n, plainXs m, specPlainZ noise 2.5 5 5 t n m)) ∧
    (n < nx → m < ny →
      (meshVerts nx ny noise t wf)[n * ny + m]? =
        some (xpt n, ypt m,
          wf n m * noise ((n : ℚ) / 5.5 + t) ((m : ℚ) / 5.2 + t))) := by
  intro noise t n m nx ny wf
  constructor
  · intro hn hm
    rw [plainVerts_getElem? noise t n m hn hm]
    rfl
  · intro hn hm
    exact meshVerts_getElem? nx ny noise t wf n m hn hm

/-- Witness for the amended C2 at node `(0, 0)`. -/
theorem C2_height_formula_amended_witness : (0 : ℕ) < 42 ∧
    (plainUpdateVerts (fun _ _ => 1) 0)[0 * 42 + 0]? =
      some (plainXs 0, plainXs 0, specPlainZ (fun _ _ => 1) 2.5 5 5 0 0 0) :=
  ⟨by decide,
    (C2_height_formula_amended (fun _ _ => 1) 0 0 0 1 1 (fun _ _ => 0)).1
      (by decide) (by decide)⟩

/-! ### AnimationDriver ticks -/

/-- Claim C6: if reading the capture source during an audio-mode tick raises
an I/O error, the tick is skipped atomically: update returns without
propagating the exception, the previously published mesh geometry and all
animation state are left unchanged, and the error is reported (the printed
message carries the error). -/
theorem C6_capture_error_skip : ∀ (nx ny : ℕ) (noise : ℚ → ℚ → ℚ)
    (s : AudioState) (e : ℕ),
    audioUpdate nx ny noise s true (Except.error e) = Except.ok (s, [e]) := by
  intro nx ny noise s e
  rfl

/-- Claim C4: the plain-mode tick advances `theta_x` by `−π/60`, `theta_y` by
`+π/40`, `theta_z` by `−π/30` and the time offset by `−0.18`; the audio-mode
tick holds the time offset unchanged and instead republishes the mesh from the
freshly pulled amplitude buffer. -/
theorem C4_tick_advancement :
    (∀ s : PlainState,
      (plainUpdate s).theta_x = s.theta_x - Real.pi / 60 ∧
      (plainUpdate s).theta_y = s.theta_y + Real.pi / 40 ∧
      (plainUpdate s).theta_z = s.theta_z - Real.pi / 30 ∧
      (plainUpdate s).offset = s.offset - 0.18) ∧
    (∀ (nx ny : ℕ) (noise : ℚ → ℚ → ℚ) (s : AudioState) (raw : List ℕ) md,
      meshA nx ny noise s.offset (some raw) = Except.ok md →
      audioUpdate nx ny noise s true (Except.ok raw) =
        Except.ok ({ offset := s.offset, meshData := md }, [])) := by
  constructor
  · intro s
    refine ⟨rfl, rfl, rfl, rfl⟩
  · intro nx ny noise s raw md h
    simp only [audioUpdate, h, if_pos]

/-- Witness for C4: a concrete audio tick on a 1 × 1 lattice with a
length-2 buffer republishes the freshly computed mesh at an unchanged
offset. -/
theorem C4_tick_advancement_witness :
    meshA 1 1 (fun _ _ => 0) (0 : ℚ) (some [0, 0]) =
      Except.ok (meshVerts 1 1 (fun _ _ => 0) 0
          (fun n m => ((ampPipeline [0, 0])[n * 1 + m]?).getD 0),
        buildFaces 1, buildColors 1) ∧
    audioUpdate 1 1 (fun _ _ => 0) ⟨0, ([], [], [])⟩ true (Except.ok [0, 0]) =
      Except.ok (⟨0, (meshVerts 1 1 (fun _ _ => 0) 0
          (fun n m => ((ampPipeline [0, 0])[n * 1 + m]?).getD 0),
        buildFaces 1, buildColors 1)⟩, []) :=
  ⟨by rfl,
    C4_tick_advancement.2 1 1 (fun _ _ => 0) ⟨0, ([], [], [])⟩ [0, 0] _ (by rfl)⟩

/-! ### RotationTransform -/

/-- Claim C3: the vertex rotation applies the combined matrix
`R = R_z · R_y · R_x`, composed in exactly that order from the single-axis
rotation matrices written in the source, and maps every input vertex `v` to
`v' = R · v`: row `i` of `np.dot(vertices, R.T)` is `R` applied to row `i`
of `vertices`. -/
theorem C3_rotation_composition : ∀ (tx ty tz : ℝ) (k : ℕ)
    (V : Matrix (Fin k) (Fin 3) ℝ) (i : Fin k),
    rotation_matrix_3d tx ty tz = R_z tz * R_y ty * R_x tx ∧
    rotate_vertices V tx ty tz i = (rotation_matrix_3d tx ty tz).mulVec (V i) := by
  intro tx ty tz k V i
  refine ⟨rfl, ?_⟩
  funext j
  simp only [rotate_vertices, Matrix.mul_apply, Matrix.mulVec, Matrix.transpose_apply,
    Matrix.dotProduct]
  exact Finset.sum_congr rfl fun x _ => mul_comm (V i x) (rotation_matrix_3d tx ty tz j x)
